import Mathlib

/-!
Verification development for the pyneurgen grammatical-evolution core.

The definitions below are a shallow embedding of the Python 2 sources
`pyneurgen/utilities.py`, `pyneurgen/genotypes.py` and
`pyneurgen/grammatical_evolution.py`.  Python strings are modelled as
`List Char`, Python ints as `Int` (or `Nat` where the source value is a
count), Python floats as `Rat`, and functions that can raise return
`Option` or `Except`.  Mutation of `self` is modelled by threading the
`Genotype` state explicitly: a fallible stateful method returns
`Genotype × Except PyErr α` (the state reflects the mutations performed
before the exception, exactly as in Python).
-/

namespace PyNeurGen

set_option maxHeartbeats 1600000

/-- Errors raised by the embedded code.  Each constructor corresponds to a
`raise` site (or a built-in exception site) in the Python source. -/
inductive PyErr where
  /-- `ValueError("Max length of genotype reached.")` in `_get_codon`. -/
  | maxLengthReached
  /-- a list subscript out of range (Python `IndexError`). -/
  | indexError
  /-- a missing dictionary key (Python `KeyError`). -/
  | keyError
  /-- `codon % len(selection)` with an empty selection (`ZeroDivisionError`). -/
  | zeroDivision
  /-- the timeout `StandardError` raised in `_map_variables`. -/
  | timeoutError
  /-- the program-length `StandardError` raised in `_map_variables`. -/
  | programTooLong
  /-- fuel exhaustion of the embedding; models divergence of the Python
  `while` loop in `_map_variables` (the loop has no bound of its own). -/
  | fuelExhausted
deriving DecidableEq, Repr

/-! ## utilities.py -/

/-- Binary digits of a positive value, most significant first: the loop
`while val > 0: new_value.append(str(val % 2)); val = val / 2` followed by
`new_value.reverse()` in `base10tobase2`.  Returns `[]` for 0 (the source
handles 0 separately).  The first argument is fuel making the halving
recursion structural; `n` itself is always enough fuel since the value is
at least halved each step. -/
def natToBinAux : Nat → Nat → List Char
  | _, 0 => []
  | 0, _ + 1 => []
  | fuel + 1, n + 1 =>
    natToBinAux fuel ((n + 1) / 2) ++ [if (n + 1) % 2 = 1 then '1' else '0']

/-- Binary rendering of `n`, most significant digit first (see
`natToBinAux`). -/
def natToBin (n : Nat) : List Char := natToBinAux n n

/-- Embedding of `utilities.base10tobase2(value, zfill)`.  The incoming int
is split into sign and magnitude; the magnitude is rendered in binary; if
`zfill` is nonzero and the rendering is longer than `zfill` a `ValueError`
is raised (`none`), otherwise it is left-padded with `'0'`; a negative sign
is prepended afterwards. -/
def base10tobase2 (value : Int) (zfill : Nat) : Option (List Char) :=
  let val := value.natAbs
  let neg := value < 0
  let s := if val = 0 then ['0'] else natToBin val
  if zfill ≠ 0 ∧ zfill < s.length then none
  else
    let s := if zfill ≠ 0 then List.replicate (zfill - s.length) '0' ++ s else s
    some (if neg then '-' :: s else s)

/-- Auxiliary loop of `base2tobase10`: the source walks the string from its
last character to its first while `factor` counts up; a `'-'` sets the
negative flag, a decimal digit contributes `digit * 2^factor`, and any
other character raises (`int(val[i])` fails).  Here the reversed string is
walked from the front, so the character at recursion depth `k` is paired
with `factor + k` exactly as in the source. -/
def base2tobase10Go : List Char → Nat → Option (Int × Bool)
  | [], _ => some (0, false)
  | c :: rest, factor =>
    match base2tobase10Go rest (factor + 1) with
    | none => none
    | some (acc, neg) =>
      if c = '-' then some (acc, true)
      else if c.isDigit then some (acc + (c.toNat - 48) * 2 ^ factor, neg)
      else none

/-- Embedding of `utilities.base2tobase10(value)`.  (The source's
`if val < 0` compares a string with an int, which is always `False` in
Python 2, so the only way `neg` becomes true is a `'-'` character.) -/
def base2tobase10 (val : List Char) : Option Int :=
  match base2tobase10Go val.reverse 0 with
  | none => none
  | some (acc, neg) => some (if neg then -acc else acc)

/-! ## genotypes.py: the Genotype data model -/

/-- State of `genotypes.Genotype`.  `binary_gene` is the bit string (a
Python string of `'0'`/`'1'` characters), `decimal_gene` the list of codon
ints, `gene_length` the `_gene_length` attribute, `position` the
`_position` pair `(position, sequence_no)`.  `local_bnf` is the genotype's
private grammar dictionary, modelled as an association list whose lookup
takes the first matching key (so overwriting prepends).  `timeouts` is the
`_timeouts` pair, index 0 (`TIMEOUT_PROG_BUILD`) first and index 1
(`TIMEOUT_PROG_EXECUTE`) second.  `fitness` is `_fitness` and
`fitness_fail` is `_fitness_fail` (floats, modelled as rationals). -/
structure Genotype where
  binary_gene : List Char
  decimal_gene : List Int
  gene_length : Nat
  position : Nat × Nat
  local_bnf : List (List Char × List (List Char))
  max_program_length : Nat
  fitness : Rat
  fitness_fail : Rat
  wrap : Bool
  extend_genotype : Bool
  timeouts : Nat × Nat
  max_gene_length : Nat
deriving DecidableEq, Repr

/-- Dictionary write `self.local_bnf[key] = value`: with first-match
lookup, prepending the new binding realises overwrite semantics. -/
def bnf_set (g : Genotype) (key : List Char) (value : List (List Char)) : Genotype :=
  { g with local_bnf := (key, value) :: g.local_bnf }

/-- Embedding of `Genotype.set_binary_gene`: trims the incoming string to
a multiple of 8 characters, stores it, and sets `_gene_length` to the
binary length divided by 8 (Python 2 integer division).  The decimal gene
is not touched here. -/
def set_binary_gene (g : Genotype) (binary_gene : List Char) : Genotype :=
  let length := binary_gene.length
  let trunc_binary_gene := binary_gene.take (length - length % 8)
  { g with binary_gene := trunc_binary_gene,
           gene_length := trunc_binary_gene.length / 8 }

/-- The slicing loop of `generate_decimal_gene`:
`for i in range(0, self._gene_length * 8, 8)` reads the 8-character slice
starting at `8 * i` and parses it with `base2tobase10`; `count` counts the
remaining iterations and `i` the current chunk index. -/
def decode_chunks (bin : List Char) : Nat → Nat → Option (List Int)
  | 0, _ => some []
  | count + 1, i =>
    match base2tobase10 ((bin.drop (8 * i)).take 8) with
    | none => none
    | some v =>
      match decode_chunks bin count (i + 1) with
      | none => none
      | some rest => some (v :: rest)

/-- Embedding of `Genotype.generate_decimal_gene`: raises `ValueError`
(`none`) when `_gene_length` is 0, otherwise converts each 8-bit slice of
the binary gene to a decimal codon and resets `_position` to `(0, 0)`. -/
def generate_decimal_gene (g : Genotype) : Option Genotype :=
  if g.gene_length = 0 then none
  else
    match decode_chunks g.binary_gene g.gene_length 0 with
    | none => none
    | some dec_geno =>
      some { g with decimal_gene := dec_geno, position := (0, 0) }

/-- Embedding of the static method `Genotype._dec2bin_gene`: renders each
decimal codon with `base10tobase2(item, zfill=8)` and joins the results
(`none` when some codon does not fit in the zfill width, i.e. the source
raises). -/
def dec2bin_gene : List Int → Option (List Char)
  | [] => some []
  | item :: rest =>
    match base10tobase2 item 8 with
    | none => none
    | some b =>
      match dec2bin_gene rest with
      | none => none
      | some r => some (b ++ r)

/-- Embedding of `Genotype._update_genotype`: rebuilds the binary gene
from the decimal gene via `set_binary_gene(self._dec2bin_gene(...))`. -/
def update_genotype (g : Genotype) : Option Genotype :=
  match dec2bin_gene g.decimal_gene with
  | none => none
  | some bin => some (set_binary_gene g bin)

/-- Embedding of the static method `Genotype._mutate`: flips the character
at `position` (`'0'` becomes `'1'`, anything else becomes `'0'`); reading
`gene[position]` out of range raises `IndexError` (`none`). -/
def mutate_bit (gene : List Char) (position : Nat) : Option (List Char) :=
  match gene.get? position with
  | none => none
  | some c => some (if c = '0' then gene.set position '1' else gene.set position '0')

/-- Embedding of `Genotype._single_mutate` at a given mutation point
(`position` stands for the `random.randint(0, self._gene_length * 8 - 1)`
draw): the binary gene is reassigned directly (not via `set_binary_gene`)
and the decimal gene is regenerated. -/
def single_mutate (g : Genotype) (position : Nat) : Option Genotype :=
  match mutate_bit g.binary_gene position with
  | none => none
  | some gene => generate_decimal_gene { g with binary_gene := gene }

/-- The bit walk of `_multiple_mutate`: for each index `i` of the gene a
coin `flips i` (standing for `random.random() < mutation_rate`) decides
whether `_mutate` is applied at `i`. -/
def mm_loop (flips : Nat → Bool) : List Char → List Nat → Option (List Char)
  | gene, [] => some gene
  | gene, i :: rest =>
    match (if flips i then mutate_bit gene i else some gene) with
    | none => none
    | some gene => mm_loop flips gene rest

/-- Embedding of `Genotype._multiple_mutate`: validates the mutation rate
(raising for rates outside `[0, 1]`), walks the gene flipping bits where
the coin `flips` fires, then stores the result with `set_binary_gene` and
regenerates the decimal gene. -/
def multiple_mutate (g : Genotype) (mutation_rate : Rat) (flips : Nat → Bool) :
    Option Genotype :=
  if mutation_rate < 0 then none
  else if 1 < mutation_rate then none
  else
    match mm_loop flips g.binary_gene (List.range g.binary_gene.length) with
    | none => none
    | some gene => generate_decimal_gene (set_binary_gene g gene)

/-- Embedding of `Genotype._get_codon`.  The raise for the non-wrap cap is
checked first; then the codon at `position` is read (out of range raises
`IndexError`); with `extend` set and `sequence_no` equal to the current
gene length the codon is appended and `_gene_length` updated; finally both
counters advance and, at the stale pre-append length, a wrapping gene
resets `position` to 0.  The returned state carries the mutations, errors
leave the state untouched (the source raises before mutating). -/
def get_codon (g : Genotype) : Genotype × Except PyErr Int :=
  let position := g.position.1
  let sequence_no := g.position.2
  let length := g.decimal_gene.length
  if ¬g.wrap ∧ sequence_no = g.max_gene_length then (g, .error .maxLengthReached)
  else
    match g.decimal_gene.get? position with
    | none => (g, .error .indexError)
    | some codon =>
      let g' := if g.extend_genotype ∧ sequence_no = length then
          { g with decimal_gene := g.decimal_gene ++ [codon],
                   gene_length := (g.decimal_gene ++ [codon]).length }
        else g
      let position := position + 1
      let sequence_no := sequence_no + 1
      let position := if position = length ∧ g'.wrap then 0 else position
      ({ g' with position := (position, sequence_no) }, .ok codon)

/-- Embedding of the static method `Genotype._select_choice`: the value at
index `codon % len(selection)` (Python `%` on a positive modulus agrees
with `Int.emod`); an empty selection raises `ZeroDivisionError` (`none`). -/
def select_choice (codon : Int) (selection : List (List Char)) : Option (List Char) :=
  if selection.length = 0 then none
  else selection.get? (codon.emod selection.length).toNat

/-! ## genotypes.py: grammar mapping (`_map_variables` and friends) -/

/-- Python's `\s` class (also the characters removed by `str.strip()`):
space, tab, newline, carriage return, form feed, vertical tab. -/
def pyIsSpace (c : Char) : Bool :=
  c = ' ' ∨ c = '\t' ∨ c = '\n' ∨ c = '\r' ∨ c = '\x0c' ∨ c = '\x0b'

/-- The test `item.strip() == ''`: true exactly when every character is
whitespace (in particular for the empty string). -/
def isBlank (item : List Char) : Bool := item.all pyIsSpace

/-- Characters admitted inside a variable name by the pattern
`VARIABLE_FORMAT = '(\<([^\>|^\s]+)\>)'`: anything except `'>'`, `'|'`,
`'^'` and whitespace. -/
def pyAllowed (c : Char) : Bool :=
  ¬(c = '>' ∨ c = '|' ∨ c = '^' ∨ pyIsSpace c)

/-- Attempts to match the rest of `VARIABLE_FORMAT` just after a `'<'`:
a maximal nonempty run of admitted characters followed by `'>'`.  Returns
the name and the remainder after the closing `'>'`.  (Greedy matching
needs no backtracking here: a shorter run is followed by an admitted
character, which cannot be `'>'`.) -/
def varName (cs : List Char) : Option (List Char × List Char) :=
  let name := cs.takeWhile pyAllowed
  if name ≠ [] ∧ (cs.drop name.length).head? = some '>' then
    some (name, cs.drop (name.length + 1))
  else none

/-- Scanner realising `re.split(VARIABLE_FORMAT, program)`: the split
pieces alternate text, the full `<name>` match (capture group 1) and the
bare name (capture group 2), ending with a trailing text piece, exactly as
`re.split` reports a pattern with two capture groups.  `acc` holds the
reversed current text piece; the fuel argument (initialised to the length
of the input, which always suffices because every step consumes at least
one character) makes the scan structural. -/
def splitGo (fuel : Nat) (acc : List Char) (cs : List Char) : List (List Char) :=
  match fuel, cs with
  | _, [] => [acc.reverse]
  | 0, cs => [acc.reverse ++ cs]
  | fuel + 1, c :: rest =>
    if c = '<' then
      match varName rest with
      | some (name, after) =>
        acc.reverse :: ('<' :: (name ++ ['>'])) :: name :: splitGo fuel [] after
      | none => splitGo fuel (c :: acc) rest
    else splitGo fuel (c :: acc) rest

/-- The split `re.split(VARIABLE_FORMAT, program)` (see `splitGo`). -/
def splitVars (program : List Char) : List (List Char) :=
  splitGo program.length [] program

/-- The nested helper `on_stoplist` of `_map_variables`:
`item.find(stopitem) > -1` for the two entries of
`STOPLIST = ['runtime_resolve', 'set_bnf_variable']`, i.e. a substring
test. -/
def onStoplist (item : List Char) : Bool :=
  decide ("runtime_resolve".toList <:+: item) ∨ decide ("set_bnf_variable".toList <:+: item)

/-- Embedding of `Genotype.resolve_variable`: looks the variable up in
`local_bnf` (`KeyError` when absent), draws a codon and selects an
alternative with `_select_choice`.  The values stored in the grammar are
already strings, so the final `str(value)` is the identity. -/
def resolve_variable (g : Genotype) (var : List Char) :
    Genotype × Except PyErr (List Char) :=
  match g.local_bnf.lookup var with
  | none => (g, .error .keyError)
  | some values =>
    match get_codon g with
    | (g', .error e) => (g', .error e)
    | (g', .ok codon) =>
      match select_choice codon values with
      | none => (g', .error .zeroDivision)
      | some value => (g', .ok value)

/-- The `status` computation for a `<...>` item in `_map_variables`:
`status` starts `True` and is cleared when `check_stoplist` holds, the
item is not at index 0, and the preceding item is on the stop list.
`prev` is the item at `position - 1` (`none` at index 0). -/
def stoplist_status (check_stoplist : Bool) (prev : Option (List Char)) : Bool :=
  if check_stoplist then
    match prev with
    | some p => ¬onStoplist p
    | none => true
  else true

/-- One pass of the inner `while position < len(prg_list)` loop of
`_map_variables`, rendered as structural recursion over the list.  The
source walks the list by index: a blank item is deleted in place (the
index does not advance); a `<...>` item is replaced by its resolved value
when `stoplist_status` holds (setting `continue_map`), and in either case
the following element (the inner capture group of the split) is then
deleted — deleting past the end raises `IndexError`.  The two status
branches are merged here: the item processed is `resolve_variable`'s
result under the status and the item itself otherwise, and `continue_map`
is forced to true under the status.  Index-wise, `position > 0` holds
exactly when some earlier item was kept, and `prg_list[position - 1]` is
the most recently kept item, which the recursion carries as `prev`; the
returned Boolean is `continue_map`. -/
def mapPass (cs : Bool) : Genotype → Option (List Char) → List (List Char) →
    Genotype × Except PyErr (List (List Char) × Bool)
  | g, _, [] => (g, .ok ([], false))
  | g, prev, item :: rest =>
    if isBlank item then mapPass cs g prev rest
    else if item.head? = some '<' ∧ item.getLast? = some '>' then
      match (if stoplist_status cs prev then resolve_variable g item
             else (g, .ok item)) with
      | (g', .error e) => (g', .error e)
      | (g', .ok value) =>
        match rest with
        | [] => (g', .error .indexError)
        | _ :: rest' =>
          match mapPass cs g' (some value) rest' with
          | (g'', .error e) => (g'', .error e)
          | (g'', .ok (l, cm)) =>
            (g'', .ok (value :: l, if stoplist_status cs prev then true else cm))
    else
      match mapPass cs g (some item) rest with
      | (g'', .error e) => (g'', .error e)
      | (g'', .ok (l, cm)) => (g'', .ok (item :: l, cm))

/-- The outer `while incomplete` loop of `_map_variables`.  After each
pass the pieces are joined, re-split, and the failure checks run: with
`check_stoplist` true (the pre-execution mapping as called by `_map_gene`)
the elapsed seconds are compared against `self._timeouts[1]`
(`TIMEOUT_PROG_EXECUTE`); with it false (the runtime resolution as called
by `runtime_resolve`) against `self._timeouts[0]` (`TIMEOUT_PROG_BUILD`) —
this mirrors the source's branches as written.  Then the program length is
checked against `_max_program_length`, and the loop returns once a pass
made no substitution.  `elapsed n` stands for `elapsed.seconds` measured
at the end of pass `n`, and the fuel models the unbounded loop. -/
def mapLoop (cs : Bool) (elapsed : Nat → Nat) :
    Nat → Nat → Genotype → List (List Char) → Genotype × Except PyErr (List Char)
  | 0, _, g, _ => (g, .error .fuelExhausted)
  | fuel + 1, passNo, g, prg_list =>
    match mapPass cs g none prg_list with
    | (g', .error e) => (g', .error e)
    | (g', .ok (pieces, continue_map)) =>
      let program := pieces.flatten
      let prg_list' := splitVars program
      let el := elapsed passNo
      let limit := if cs then g'.timeouts.2 else g'.timeouts.1
      if el > limit then (g', .error .timeoutError)
      else if program.length > g'.max_program_length then (g', .error .programTooLong)
      else if continue_map = false then (g', .ok program)
      else mapLoop cs elapsed fuel (passNo + 1) g' prg_list'

/-- Embedding of `Genotype._map_variables(program, check_stoplist)`. -/
def map_variables (g : Genotype) (program : List Char) (check_stoplist : Bool)
    (elapsed : Nat → Nat) (fuel : Nat) : Genotype × Except PyErr (List Char) :=
  mapLoop check_stoplist elapsed fuel 0 g (splitVars program)

/-! ## genotypes.py: runtime value formatting, `_map_gene`, `compute_fitness` -/

/-- The `return_type == 'bool'` branch of the static method
`Genotype._fmt_resolved_vars`.  The source tests `value in 'True'` — the
Python substring operator — so every substring of `"True"` (including the
empty string) yields `True`; only the exact string `"False"` yields
`False`; anything else raises `ValueError` (`none`).  The int and float
branches call `eval` on arbitrary Python expressions and are outside this
embedding. -/
def fmt_resolved_vars_bool (value : List Char) : Option Bool :=
  if decide (value <:+: "True".toList) then some true
  else if value = "False".toList then some false
  else none

/-- The mapping step inside the `try` block of `Genotype._map_gene`:
`self._map_variables(self.local_bnf['<S>'][0], True)`.  A missing `<S>`
key raises `KeyError` and an empty alternative list makes `[0]` raise
`IndexError`; both land in the same bare `except` as a mapping failure. -/
def map_gene_try (g : Genotype) (elapsed : Nat → Nat) (fuel : Nat) :
    Genotype × Except PyErr (List Char) :=
  match g.local_bnf.lookup "<S>".toList with
  | none => (g, .error .keyError)
  | some [] => (g, .error .indexError)
  | some (s :: _) => map_variables g s true elapsed fuel

/-- Embedding of `Genotype._map_gene`.  `execF` is an oracle for
`_execute_code`, which runs the generated program with `exec` — arbitrary
Python acting on `self` — and therefore cannot be embedded; the oracle
returns the mutated genotype and whether execution raised (the raise is
swallowed by the bare `except` either way, as is a mapping failure).
`fmtF` and `parseF` stand for Python's `str()` on and `float()` of a float
(`str(self._fitness_fail)` before the `try`, `float(...)` on the
`'<fitness>'` entry after it); `parseF` returning `none` is a conversion
error, which the source raises *outside* the `try`, so it propagates
(overall result `none`).  Otherwise the parsed value is stored in
`_fitness` and returned.  The two dictionary writes that precede the
mapping (`self.local_bnf['<fitness>'] = [str(self._fitness_fail)]` before
the `try` and the `'program'` placeholder inside it, neither of which can
raise) are split into `map_gene_setup`. -/
def map_gene_setup (g : Genotype) (fmtF : Rat → List Char) : Genotype :=
  bnf_set (bnf_set g "<fitness>".toList [fmtF g.fitness_fail])
    "program".toList ["mapping variables into program failed".toList]

/-- The genotype state at the end of the `try` block of `_map_gene`: on a
mapping failure the caught state; on a successful mapping the state after
`self.local_bnf[BNF_PROGRAM] = [program]` and `self._execute_code(program)`
(whose raise, if any, is also caught). -/
def map_gene_after (g : Genotype)
    (execF : List Char → Genotype → Genotype × Option PyErr)
    (elapsed : Nat → Nat) (fuel : Nat) (fmtF : Rat → List Char) : Genotype :=
  match map_gene_try (map_gene_setup g fmtF) elapsed fuel with
  | (g', .error _) => g'
  | (g', .ok program) => (execF program (bnf_set g' "program".toList [program])).1

/-- Embedding of `Genotype._map_gene` proper (see `map_gene_setup` and
`map_gene_after`): after the `try` block, `float(self.local_bnf['<fitness>'][0])`
is stored in `_fitness` and returned. -/
def map_gene (g : Genotype) (execF : List Char → Genotype → Genotype × Option PyErr)
    (elapsed : Nat → Nat) (fuel : Nat)
    (fmtF : Rat → List Char) (parseF : List Char → Option Rat) :
    Option (Genotype × Rat) :=
  match (map_gene_after g execF elapsed fuel fmtF).local_bnf.lookup
      "<fitness>".toList with
  | some (v :: _) =>
    match parseF v with
    | some q => some ({ map_gene_after g execF elapsed fuel fmtF with fitness := q }, q)
    | none => none
  | _ => none

/-- Embedding of `Genotype.compute_fitness`: resets the gene cursor, maps
and executes the gene, and — when the genotype extends — resynthesises the
binary gene from the decimal gene with `_update_genotype` before returning
`self._fitness`. -/
def compute_fitness (g : Genotype)
    (execF : List Char → Genotype → Genotype × Option PyErr)
    (elapsed : Nat → Nat) (fuel : Nat)
    (fmtF : Rat → List Char) (parseF : List Char → Option Rat) :
    Option (Genotype × Rat) :=
  let g := { g with position := (0, 0) }
  match map_gene g execF elapsed fuel fmtF parseF with
  | none => none
  | some (g', fit) =>
    if g'.extend_genotype then
      match update_genotype g' with
      | none => none
      | some g'' => some (g'', fit)
    else some (g', fit)

/-! ## grammatical_evolution.py -/

/-- Embedding of the static method
`GrammaticalEvolution._crossover_function`: the two strings exchange their
tails at `crosspoint` (Python slices `[0:crosspoint]` and
`[crosspoint:]`). -/
def crossover_function (child1_binary child2_binary : List Char) (crosspoint : Nat) :
    List Char × List Char :=
  (child1_binary.take crosspoint ++ child2_binary.drop crosspoint,
   child2_binary.take crosspoint ++ child1_binary.drop crosspoint)

/-- Embedding of `GrammaticalEvolution._crossover`.  `swap` stands for the
`randint(0, 1)` label draw (`true` keeps `parent1` as `child1`) and
`crosspoint` for the `randint(2, minlength - 2)` draw.  Each child starts
as a deep copy of its parent, receives its crossed binary gene via
`set_binary_gene` and regenerates its decimal gene (which can raise, hence
`Option`). -/
def crossover (swap : Bool) (crosspoint : Nat) (parent1 parent2 : Genotype) :
    Option (Genotype × Genotype) :=
  let child1 := if swap then parent1 else parent2
  let child2 := if swap then parent2 else parent1
  let (child1_binary, child2_binary) :=
    crossover_function child1.binary_gene child2.binary_gene crosspoint
  match generate_decimal_gene (set_binary_gene child1 child1_binary) with
  | none => none
  | some child1' =>
    match generate_decimal_gene (set_binary_gene child2 child2_binary) with
    | none => none
    | some child2' => some (child1', child2')

/-- The bound `total = int(round(self._max_fitness_rate * float(self._population_size)))`
of `_evaluate_fitness`; Python 2's `round` rounds half away from zero, so
for a nonnegative argument `int(round(x))` is `⌊x + 1/2⌋`.  The float
product is modelled by the exact rational product. -/
def pool_total (max_fitness_rate : Rat) (population_size : Nat) : Nat :=
  ⌊max_fitness_rate * population_size + 1 / 2⌋.toNat

/-- Inner loop of `_evaluate_fitness` over one selection strategy: each
drawn member number is appended and counted; when `count == total` the
`break` leaves this strategy (and only this strategy). -/
def fill_inner (total : Nat) : Nat → List Nat → List Nat → List Nat × Nat
  | count, flist, [] => (flist, count)
  | count, flist, i :: rest =>
    let flist := flist ++ [i]
    let count := count + 1
    if count = total then (flist, count) else fill_inner total count flist rest

/-- The strategy loop of `_evaluate_fitness`: runs the configured fitness
selections in order (each strategy is represented by the list of member
numbers its `select()` yields), threading the pool and the count through
`fill_inner`.  There is no break at this level: a strategy is entered even
when the count already reached (or passed) `total`. -/
def fill_pool (total : Nat) (selections : List (List Nat)) : List Nat :=
  (selections.foldl (fun acc s => fill_inner total acc.2 acc.1 s) ([], 0)).1

/-- The fitness-type constants `MAX`, `MIN`, `CENTER` of the fitness
module. -/
inductive FitnessType where
  | max
  | min
  | center
deriving DecidableEq, Repr

/-- Modelled from the spec: the `FitnessList` class lives in
`pyneurgen/fitness.py`, which is not among the sources (only its tests and
callers are), so the three accessors `_continue_processing` uses —
`get_fitness_type()`, `get_target_value()` and `best_value()` — are
modelled as fields: the comparison mode, the optional target value, and
the best fitness value of the current scoreboard. -/
structure FitnessListM where
  fitness_type : FitnessType
  target_value : Option Rat
  best_value : Rat

/-- Embedding of `GrammaticalEvolution._continue_processing`.  `status`
starts as `True`; a configured maximum generation at or below the current
generation returns `False`; with a target value configured, a best value
at or past the target for the configured mode returns `False`; finally,
when a fitness-landscape stopping function is configured, its return value
*replaces* `status` and is returned as the continue flag. -/
def continue_processing (max_generations : Option Nat)
    (fitness_landscape : Option (FitnessListM → Bool))
    (generation : Nat) (fitl : FitnessListM) : Bool :=
  let status := true
  if (match max_generations with
      | some mg => decide (mg ≤ generation)
      | none => false) then false
  else if (match fitl.target_value with
      | some tv =>
        match fitl.fitness_type with
        | .max => decide (fitl.best_value ≥ tv)
        | .min => decide (fitl.best_value ≤ tv)
        | .center => decide (fitl.best_value ≤ tv)
      | none => false) then false
  else
    match fitness_landscape with
    | some f => f fitl
    | none => status

/-! ## Concrete inputs and auxiliary executions used by the theorems -/

/-- Decidable equality on `Except`, so that concrete runs of the embedded
fallible code can be evaluated by `decide`. -/
instance {ε α : Type} [DecidableEq ε] [DecidableEq α] : DecidableEq (Except ε α) :=
  fun x y =>
    match x, y with
    | .ok a, .ok b =>
      if h : a = b then isTrue (by rw [h])
      else isFalse (by intro hh; cases hh; exact h rfl)
    | .ok _, .error _ => isFalse (by intro hh; cases hh)
    | .error _, .ok _ => isFalse (by intro hh; cases hh)
    | .error a, .error b =>
      if h : a = b then isTrue (by rw [h])
      else isFalse (by intro hh; cases hh; exact h rfl)

/-- A default genotype state used as the base of concrete instances. -/
def baseGeno : Genotype := {
  binary_gene := []
  decimal_gene := []
  gene_length := 0
  position := (0, 0)
  local_bnf := []
  max_program_length := 1000
  fitness := 0
  fitness_fail := -1000
  wrap := true
  extend_genotype := true
  timeouts := (20, 3600)
  max_gene_length := 4 }

/-- A sequence of `n` consecutive `_get_codon` calls, collecting the drawn
codons (stopping at the first raise). -/
def draw_codons : Nat → Genotype → Genotype × Except PyErr (List Int)
  | 0, g => (g, .ok [])
  | n + 1, g =>
    match get_codon g with
    | (g', .error e) => (g', .error e)
    | (g', .ok c) =>
      match draw_codons n g' with
      | (g'', .ok cs) => (g'', .ok (c :: cs))
      | r => r

/-- Concrete formatter standing for `str()` on the two float values used
by the C2 instances. -/
def c2fmt : Rat → List Char :=
  fun q => if q = -1000 then "-1000".toList else "99".toList

/-- Concrete parser standing for `float()` on the two strings used by the
C2 instances (inverse of `c2fmt` there). -/
def c2parse : List Char → Option Rat :=
  fun s => if s = "-1000".toList then some (-1000)
    else if s = "99".toList then some 99 else none

/-- A genotype whose grammar maps the start symbol to the variable-free
program `x`. -/
def c2geno : Genotype :=
  { baseGeno with
    local_bnf := [("<S>".toList, ["x".toList])],
    decimal_gene := [0], gene_length := 1, extend_genotype := false }

/-- An execution oracle for a generated program that records fitness 99
(via `set_bnf_variable('<fitness>', ...)`) and then raises. -/
def c2exec_overwrite : List Char → Genotype → Genotype × Option PyErr :=
  fun _ gx => (bnf_set gx "<fitness>".toList ["99".toList], some PyErr.keyError)

/-- A genotype with no `'<S>'` entry, so the mapping step raises
`KeyError`. -/
def c2geno_nos : Genotype :=
  { baseGeno with decimal_gene := [0], gene_length := 1, extend_genotype := false }

/-- An execution oracle that does nothing and succeeds. -/
def c2exec_idle : List Char → Genotype → Genotype × Option PyErr :=
  fun _ gx => (gx, none)

/-- Relation between a genotype state after a mapping step and the state
before it: the grammar dictionary, the fail-fitness value and the extend
flag are untouched, and every codon of the new decimal gene already
occurred in the old one (`_get_codon` only ever appends copies of existing
codons). -/
def MapCtxOk (a b : Genotype) : Prop :=
  a.local_bnf = b.local_bnf ∧ a.fitness_fail = b.fitness_fail ∧
  a.extend_genotype = b.extend_genotype ∧
  ∀ c ∈ a.decimal_gene, c ∈ b.decimal_gene

/-! ## Claims -/

/-- C1: for every non-empty list of alternatives and every codon value
`c ≥ 0`, `_select_choice` returns the element at index
`c mod len(alternatives)`; and mapping the statement block
`a = <v1>\nb = <v2>\nfitness = a+b` with productions `<v1> ::= -1|2|0`,
`<v2> ::= 1|2|3` and decimal gene `[0, 1, 5, 6]` draws codon 0 (selecting
`-1` for `<v1>`) and codon 1 (selecting `2` for `<v2>`), producing the
text `a = -1\nb = 2\nfitness = a+b` with the cursor at `(2, 2)`. -/
theorem claim_c1_modulo_selection :
    (∀ (c : Nat) (selection : List (List Char)) (h : selection ≠ []),
      select_choice (c : Int) selection =
        some (selection.get ⟨c % selection.length,
          Nat.mod_lt c (List.length_pos.mpr h)⟩)) ∧
    ((map_variables
        { baseGeno with
            decimal_gene := [0, 1, 5, 6]
            gene_length := 4
            local_bnf :=
              [("<S>".toList, ["a = <v1>\nb = <v2>\nfitness = a+b".toList]),
               ("<v1>".toList, ["-1".toList, "2".toList, "0".toList]),
               ("<v2>".toList, ["1".toList, "2".toList, "3".toList])] }
        "a = <v1>\nb = <v2>\nfitness = a+b".toList true (fun _ => 0) 5).2
          = .ok "a = -1\nb = 2\nfitness = a+b".toList ∧
     (map_variables
        { baseGeno with
            decimal_gene := [0, 1, 5, 6]
            gene_length := 4
            local_bnf :=
              [("<S>".toList, ["a = <v1>\nb = <v2>\nfitness = a+b".toList]),
               ("<v1>".toList, ["-1".toList, "2".toList, "0".toList]),
               ("<v2>".toList, ["1".toList, "2".toList, "3".toList])] }
        "a = <v1>\nb = <v2>\nfitness = a+b".toList true (fun _ => 0) 5).1.position
          = (2, 2)) := by
  constructor
  · intro c selection h
    unfold select_choice
    have hlen : selection.length ≠ 0 := by
      simpa [List.length_eq_zero] using h
    simp only [if_neg hlen]
    have hcast : ((c : Int).emod (selection.length : Int)).toNat
        = c % selection.length := by
      have h1 : ((c : Int).emod (selection.length : Int))
          = ((c % selection.length : Nat) : Int) :=
        (Int.natCast_mod c selection.length).symm
      rw [h1, Int.toNat_natCast]
    rw [hcast, List.get?_eq_get (Nat.mod_lt c (List.length_pos.mpr h))]
  · exact ⟨by decide, by decide⟩

/-- Witness for C1: codon 10 against the three alternatives of `<v1>`
selects index `10 mod 3 = 1`, the alternative `2`. -/
theorem claim_c1_witness :
    select_choice (10 : Nat) ["-1".toList, "2".toList, "0".toList]
      = some "2".toList := by
  have h := claim_c1_modulo_selection.1 10
    ["-1".toList, "2".toList, "0".toList] (by decide)
  rw [h]
  rfl

/-- C3: the source checks the pre-execution mapping (`check_stoplist`
true) against `self._timeouts[1]` and the runtime resolution
(`check_stoplist` false) against `self._timeouts[0]` — the opposite of the
claim.  With `timeouts = (0, 3600)` and one elapsed second, the initial
mapping of a variable-free program succeeds even though the build-phase
deadline (0) is exceeded, while a runtime resolution raises the timeout
even though the execute-phase deadline (3600) is not exceeded. -/
theorem claim_c3_timeouts_swapped :
    ((map_variables { baseGeno with timeouts := (0, 3600) }
        "x".toList true (fun _ => 1) 3).2 = .ok "x".toList) ∧
    ((map_variables { baseGeno with timeouts := (0, 3600) }
        "x".toList false (fun _ => 1) 3).2 = .error .timeoutError) ∧
    1 > (0 : Nat) ∧ ¬(1 > (3600 : Nat)) := by
  refine ⟨by decide, by decide, by decide, by decide⟩

/-- C4 counterexample: with no other stop condition configured, a custom
stopping predicate returning `True` makes `_continue_processing` return
`True` — the loop continues, it does not stop as the claim states; and a
predicate returning `False` stops the run. -/
theorem claim_c4_counterexample :
    continue_processing none (some fun _ => true) 0
      ⟨FitnessType.max, none, 0⟩ = true ∧
    continue_processing none (some fun _ => false) 0
      ⟨FitnessType.max, none, 0⟩ = false := by
  exact ⟨rfl, rfl⟩

/-- C4 (amended): when a custom stopping predicate is configured and the
other stop conditions are absent (no max generation, no target value), the
generational loop continues exactly when the predicate returns true and
stops when it returns false: the predicate's value is returned as the
continue flag. -/
theorem claim_c4_landscape_is_continue_flag
    (f : FitnessListM → Bool) (generation : Nat) (fitl : FitnessListM)
    (htarget : fitl.target_value = none) :
    continue_processing none (some f) generation fitl = f fitl := by
  simp [continue_processing, htarget]

/-- Witness for C4: the continue flag equals the predicate value on a
concrete scoreboard. -/
theorem claim_c4_witness :
    continue_processing none (some fun _ => false) 0
      ⟨FitnessType.min, none, 5⟩ = false := by
  have h := claim_c4_landscape_is_continue_flag (fun _ => false) 0
    ⟨FitnessType.min, none, 5⟩ rfl
  exact h

/-- C5: with `wrap = true` and `extend = true`, `_get_codon` appends a
codon whenever `sequence_no` equals the current gene length without ever
consulting `_max_gene_length`, so the decimal gene grows past the
configured maximum: from gene `[3, 34, 5, 6]` with `max_gene_length = 5`,
six draws succeed and leave a gene of length 6. -/
theorem claim_c5_extend_growth_unbounded :
    ((draw_codons 6 { baseGeno with
        decimal_gene := [3, 34, 5, 6], gene_length := 4,
        max_gene_length := 5 }).2 = .ok [3, 34, 5, 6, 3, 34]) ∧
    ((draw_codons 6 { baseGeno with
        decimal_gene := [3, 34, 5, 6], gene_length := 4,
        max_gene_length := 5 }).1.decimal_gene.length = 6) ∧
    (5 : Nat) < 6 := by
  refine ⟨by decide, by decide, by decide⟩

/-- C8 counterexample: with `max_fitness_rate = 0.1` and population 10 the
pool bound is 1 (here round and ceiling agree), yet two one-member
strategies fill the pool to 2 members because the `break` only leaves the
inner loop; and with rate `0.21` the bound is `int(round(2.1)) = 2`, not
`ceil(2.1) = 3`. -/
theorem claim_c8_counterexample :
    pool_total (1 / 10) 10 = 1 ∧
    fill_pool (pool_total (1 / 10) 10) [[0], [1]] = [0, 1] ∧
    (fill_pool (pool_total (1 / 10) 10) [[0], [1]]).length = 2 ∧
    pool_total (21 / 100) 10 = 2 := by
  have h1 : pool_total (1 / 10) 10 = 1 := by
    unfold pool_total
    have harg : (1 / 10 : Rat) * (10 : Nat) + 1 / 2 = 3 / 2 := by
      push_cast
      norm_num
    rw [harg]
    have hf : ⌊(3 / 2 : Rat)⌋ = 1 := by
      apply Int.floor_eq_iff.mpr
      constructor <;> norm_num
    rw [hf]
    rfl
  have h2 : pool_total (21 / 100) 10 = 2 := by
    unfold pool_total
    have harg : (21 / 100 : Rat) * (10 : Nat) + 1 / 2 = 13 / 5 := by
      push_cast
      norm_num
    rw [harg]
    have hf : ⌊(13 / 5 : Rat)⌋ = 2 := by
      apply Int.floor_eq_iff.mpr
      constructor <;> norm_num
    rw [hf]
    rfl
  rw [h1, h2]
  refine ⟨rfl, by decide, by decide, rfl⟩

/-- The inner fill loop, entered with `count` still below `total`, appends
exactly the first `total - count` drawn members and stops (mid-strategy)
when the count reaches `total`. -/
theorem fill_inner_spec (s : List Nat) :
    ∀ (total count : Nat) (acc : List Nat), count < total →
      fill_inner total count acc s =
        (acc ++ s.take (total - count), min (count + s.length) total) := by
  induction s with
  | nil =>
    intro total count acc h
    simp only [fill_inner, List.take_nil, List.append_nil, List.length_nil,
      Prod.mk.injEq]
    exact ⟨by simp, by omega⟩
  | cons i rest ih =>
    intro total count acc h
    rw [show fill_inner total count acc (i :: rest) =
        (if count + 1 = total then (acc ++ [i], count + 1)
         else fill_inner total (count + 1) (acc ++ [i]) rest) from rfl]
    by_cases hc : count + 1 = total
    · rw [if_pos hc]
      have h1 : total - count = 1 := by omega
      rw [h1]
      simp only [List.take_succ_cons, List.take_zero, List.length_cons,
        Prod.mk.injEq]
      exact ⟨by simp, by omega⟩
    · rw [if_neg hc, ih total (count + 1) (acc ++ [i]) (by omega)]
      have h1 : total - count = (total - (count + 1)) + 1 := by omega
      rw [h1]
      simp only [List.take_succ_cons, List.length_cons, Prod.mk.injEq,
        List.append_assoc, List.singleton_append]
      exact ⟨by simp, by omega⟩

/-- C8 (amended): the pool bound is `int(round(max_fitness_rate · N))`
(round half away from zero), not the ceiling; with a single configured
fitness-selection strategy and a positive bound, filling stops mid-strategy
exactly when the pool reaches the bound, so the pool is the first
`bound` drawn members and never exceeds the bound.  (With several
strategies a strategy entered after the bound has been reached is drained
in full and the pool can exceed the bound — see the counterexample.) -/
theorem claim_c8_single_strategy_bound (total : Nat) (s : List Nat)
    (h : 0 < total) :
    fill_pool total [s] = s.take total ∧
    (fill_pool total [s]).length ≤ total := by
  have hfill : fill_pool total [s] = s.take total := by
    have := fill_inner_spec s total 0 [] h
    simp only [fill_pool, List.foldl_cons, List.foldl_nil]
    rw [this]
    simp
  refine ⟨hfill, ?_⟩
  rw [hfill]
  exact List.length_take_le total s

/-- Witness for C8: a three-member strategy against bound 2 yields the
first two members. -/
theorem claim_c8_witness :
    fill_pool 2 [[5, 6, 7]] = [5, 6] ∧ (fill_pool 2 [[5, 6, 7]]).length ≤ 2 := by
  have h := claim_c8_single_strategy_bound 2 [5, 6, 7] (by decide)
  exact ⟨by decide, h.2⟩

set_option maxRecDepth 8192 in
/-- Evaluating the round trip on one byte value: `base10tobase2 c 8`
succeeds, yields eight characters, and `base2tobase10` maps them back to
`c`, for every codon value `c < 256`. -/
theorem byte_roundtrip (n : Nat) (h : n < 256) :
    (base10tobase2 (n : Int) 8).isSome = true ∧
    ((base10tobase2 (n : Int) 8).getD []).length = 8 ∧
    base2tobase10 ((base10tobase2 (n : Int) 8).getD []) = some (n : Int) := by
  revert n h
  decide

/-- Existence form of the byte round trip: every codon value in `[0, 255]`
renders to exactly eight binary characters that parse back to it. -/
theorem byte_some (c : Int) (h0 : 0 ≤ c) (h255 : c ≤ 255) :
    ∃ b, base10tobase2 c 8 = some b ∧ b.length = 8 ∧ base2tobase10 b = some c := by
  have hn : c.toNat < 256 := by omega
  have h := byte_roundtrip c.toNat hn
  have hc : (c.toNat : Int) = c := Int.toNat_of_nonneg h0
  rw [hc] at h
  obtain ⟨b, hb⟩ := Option.isSome_iff_exists.mp h.1
  have h2 := h.2.1
  have h3 := h.2.2
  rw [hb, Option.getD_some] at h2 h3
  exact ⟨b, hb, h2, h3⟩

/-- Specification of `_dec2bin_gene` on codons in `[0, 255]`: it succeeds,
the result has 8 bits per codon, and `decode_chunks` recovers the codons
from any binary gene whose tail (from chunk index `i`) is the rendered
bits. -/
theorem dec2bin_gene_spec :
    ∀ (dec : List Int), (∀ c ∈ dec, 0 ≤ c ∧ c ≤ 255) →
      ∃ bits, dec2bin_gene dec = some bits ∧ bits.length = 8 * dec.length ∧
        ∀ (bin : List Char) (i : Nat), bin.drop (8 * i) = bits →
          decode_chunks bin dec.length i = some dec := by
  intro dec
  induction dec with
  | nil => exact fun _ => ⟨[], rfl, rfl, fun bin i _ => rfl⟩
  | cons c rest ih =>
    intro hr
    obtain ⟨b, hb, hlen, hparse⟩ :=
      byte_some c (hr c (by simp)).1 (hr c (by simp)).2
    obtain ⟨bits, hbits, hblen, hdec⟩ := ih (fun x hx => hr x (by simp [hx]))
    refine ⟨b ++ bits, ?_, ?_, ?_⟩
    · simp [dec2bin_gene, hb, hbits]
    · simp [hblen, hlen, List.length_cons]
      ring
    · intro bin i hdrop
      have hchunk : (bin.drop (8 * i)).take 8 = b := by
        rw [hdrop, ← hlen]
        exact List.take_left b bits
      have hnext : bin.drop (8 * (i + 1)) = bits := by
        have h8 : 8 * (i + 1) = 8 * i + 8 := by ring
        rw [h8, ← List.drop_drop, hdrop]
        exact List.drop_left' hlen
      have := hdec bin (i + 1) hnext
      simp [decode_chunks, hchunk, hparse, this, List.length_cons]

/-- C10: converting a non-empty decimal gene whose codons lie in
`[0, 255]` to a binary gene (8 bits per codon), setting that binary gene
with `set_binary_gene`, and regenerating the decimal gene reproduces
exactly the original codon sequence; hence `_update_genotype` (which
rebuilds the binary gene from the decimal gene after extension) leaves the
decimal gene unchanged. -/
theorem claim_c10_gene_roundtrip (g : Genotype) (dec : List Int)
    (hne : dec ≠ []) (hr : ∀ c ∈ dec, 0 ≤ c ∧ c ≤ 255) :
    ((dec2bin_gene dec).bind fun bits =>
        generate_decimal_gene (set_binary_gene g bits)).map Genotype.decimal_gene
      = some dec ∧
    (dec2bin_gene dec).map List.length = some (8 * dec.length) ∧
    (update_genotype { g with decimal_gene := dec }).map Genotype.decimal_gene
      = some dec := by
  obtain ⟨bits, hb, hlen, hdec⟩ := dec2bin_gene_spec dec hr
  have hmod : bits.length % 8 = 0 := by
    rw [hlen]
    exact Nat.mul_mod_right 8 dec.length
  have htrunc : bits.take (bits.length - bits.length % 8) = bits := by
    rw [hmod, Nat.sub_zero, List.take_length]
  have hdiv : bits.length / 8 = dec.length := by
    rw [hlen]
    exact Nat.mul_div_cancel_left dec.length (by norm_num)
  have hsb : set_binary_gene g bits =
      { g with binary_gene := bits, gene_length := dec.length } := by
    simp only [set_binary_gene, htrunc, hdiv]
  have hg0 : dec.length ≠ 0 := fun hz => hne (List.length_eq_zero.mp hz)
  have hchunks : decode_chunks bits dec.length 0 = some dec :=
    hdec bits 0 (by simp)
  have hgen : generate_decimal_gene (set_binary_gene g bits) =
      some { g with binary_gene := bits, gene_length := dec.length,
                    decimal_gene := dec, position := (0, 0) } := by
    rw [hsb]
    simp only [generate_decimal_gene, hg0, if_false, hchunks]
  refine ⟨?_, ?_, ?_⟩
  · rw [hb]
    simp only [Option.some_bind, hgen]
    rfl
  · rw [hb]
    simp [hlen]
  · have hdg : ({ g with decimal_gene := dec } : Genotype).decimal_gene = dec := rfl
    simp only [update_genotype, hdg, hb, Option.map_some]
    rfl

/-- Witness for C10: the gene `[0, 1, 255]` survives the binary round
trip. -/
theorem claim_c10_witness :
    ((dec2bin_gene [0, 1, 255]).bind fun bits =>
        generate_decimal_gene (set_binary_gene baseGeno bits)).map Genotype.decimal_gene
      = some [0, 1, 255] ∧
    (dec2bin_gene [0, 1, 255]).map List.length
      = some (8 * ([0, 1, 255] : List Int).length) ∧
    (update_genotype { baseGeno with decimal_gene := [0, 1, 255] }).map
        Genotype.decimal_gene = some [0, 1, 255] :=
  claim_c10_gene_roundtrip baseGeno [0, 1, 255] (by decide) (by decide)

/-- C9: the runtime boolean coercion tests `value in 'True'` — Python's
substring operator — so besides the exact literals, every substring of
`"True"` (such as `"ru"`, or the empty string) is coerced to `True`
instead of raising; only `"False"` compares with equality. -/
theorem claim_c9_bool_substring_check :
    fmt_resolved_vars_bool "True".toList = some true ∧
    fmt_resolved_vars_bool "False".toList = some false ∧
    fmt_resolved_vars_bool "ru".toList = some true ∧
    fmt_resolved_vars_bool "".toList = some true ∧
    fmt_resolved_vars_bool "not true".toList = none := by
  refine ⟨by decide, by decide, by decide, by decide, by decide⟩

/-- Decoded chunk lists have one codon per requested chunk. -/
theorem decode_chunks_length :
    ∀ (n i : Nat) (bin : List Char) (l : List Int),
      decode_chunks bin n i = some l → l.length = n := by
  intro n
  induction n with
  | zero =>
    intro i bin l h
    simp only [decode_chunks, Option.some.injEq] at h
    rw [← h]
    rfl
  | succ m ih =>
    intro i bin l h
    simp only [decode_chunks] at h
    cases hv : base2tobase10 ((bin.drop (8 * i)).take 8) with
    | none => rw [hv] at h; exact absurd h (by simp)
    | some v =>
      rw [hv] at h
      cases hrest : decode_chunks bin m (i + 1) with
      | none => rw [hrest] at h; exact absurd h (by simp)
      | some rest =>
        rw [hrest] at h
        simp only [Option.some.injEq] at h
        rw [← h, List.length_cons, ih (i + 1) bin rest hrest]

/-- A successful `generate_decimal_gene` sets the decimal gene to
`_gene_length` codons and leaves the binary gene and `_gene_length`
unchanged. -/
theorem generate_decimal_gene_spec (g g' : Genotype)
    (h : generate_decimal_gene g = some g') :
    g'.decimal_gene.length = g.gene_length ∧
    g'.binary_gene = g.binary_gene ∧ g'.gene_length = g.gene_length := by
  unfold generate_decimal_gene at h
  by_cases hz : g.gene_length = 0
  · rw [if_pos hz] at h
    exact absurd h (by simp)
  · rw [if_neg hz] at h
    cases hd : decode_chunks g.binary_gene g.gene_length 0 with
    | none => rw [hd] at h; exact absurd h (by simp)
    | some dec =>
      rw [hd] at h
      simp only [Option.some.injEq] at h
      rw [← h]
      exact ⟨decode_chunks_length g.gene_length 0 g.binary_gene dec hd, rfl, rfl⟩

/-- Regenerating the decimal gene right after `set_binary_gene` restores
the invariant `decimal length = binary length / 8`, because
`set_binary_gene` stores `_gene_length = len(binary) / 8`. -/
theorem generate_after_set_binary (g : Genotype) (b : List Char) (g' : Genotype)
    (h : generate_decimal_gene (set_binary_gene g b) = some g') :
    g'.decimal_gene.length = g'.binary_gene.length / 8 := by
  have hs := generate_decimal_gene_spec _ _ h
  rw [hs.1, hs.2.1]
  rfl

/-- Flipping one bit preserves the gene's length. -/
theorem mutate_bit_length (gene : List Char) (p : Nat) (r : List Char)
    (h : mutate_bit gene p = some r) : r.length = gene.length := by
  unfold mutate_bit at h
  cases hg : gene.get? p with
  | none => rw [hg] at h; exact absurd h (by simp)
  | some c =>
    rw [hg] at h
    simp only [Option.some.injEq] at h
    rw [← h]
    by_cases hc : c = '0' <;> simp [hc]

/-- Inverts the nested option match produced by `_crossover`: a `some`
result means both children regenerated successfully. -/
theorem crossover_match_inv {o1 o2 : Option Genotype} {c1 c2 : Genotype}
    (h : (match o1 with
          | none => none
          | some x =>
            match o2 with
            | none => none
            | some y => some (x, y)) = some (c1, c2)) :
    o1 = some c1 ∧ o2 = some c2 := by
  cases o1 <;> cases o2 <;> simp_all

/-- C7 counterexample: `set_binary_gene` alone updates only the binary
gene and `_gene_length`; the decimal gene is left stale, so immediately
after a direct `set_binary_gene` call (with a binary gene of a different
length) the decimal length is not the binary length divided by 8. -/
theorem claim_c7_counterexample :
    ((set_binary_gene { baseGeno with
        binary_gene := List.replicate 16 '0',
        decimal_gene := [0, 0], gene_length := 2 }
        (List.replicate 24 '0')).binary_gene.length = 24) ∧
    ((set_binary_gene { baseGeno with
        binary_gene := List.replicate 16 '0',
        decimal_gene := [0, 0], gene_length := 2 }
        (List.replicate 24 '0')).decimal_gene.length = 2) ∧
    (24 : Nat) / 8 = 3 ∧ (2 : Nat) ≠ 3 := by
  refine ⟨by decide, by decide, by decide, by decide⟩

/-- C7 (amended): immediately after a single mutation, a multiple
mutation, or a crossover — each of which regenerates the decimal gene —
the decimal length equals the binary length divided by 8; a direct
`set_binary_gene` call updates the recorded `_gene_length` to the new
binary length divided by 8, but leaves the decimal gene stale until
`generate_decimal_gene` is called, after which the invariant holds
again. -/
theorem claim_c7_decimal_binary_invariant :
    (∀ (g : Genotype) (position : Nat) (g' : Genotype),
      g.binary_gene.length = 8 * g.gene_length →
      single_mutate g position = some g' →
      g'.decimal_gene.length = g'.binary_gene.length / 8) ∧
    (∀ (g : Genotype) (rate : Rat) (flips : Nat → Bool) (g' : Genotype),
      multiple_mutate g rate flips = some g' →
      g'.decimal_gene.length = g'.binary_gene.length / 8) ∧
    (∀ (swap : Bool) (k : Nat) (p1 p2 c1 c2 : Genotype),
      crossover swap k p1 p2 = some (c1, c2) →
      c1.decimal_gene.length = c1.binary_gene.length / 8 ∧
      c2.decimal_gene.length = c2.binary_gene.length / 8) ∧
    (∀ (g : Genotype) (b : List Char),
      (set_binary_gene g b).gene_length
          = (set_binary_gene g b).binary_gene.length / 8 ∧
      ∀ (g' : Genotype), generate_decimal_gene (set_binary_gene g b) = some g' →
        g'.decimal_gene.length = g'.binary_gene.length / 8) := by
  refine ⟨?_, ?_, ?_, ?_⟩
  · intro g position g' hinv h
    unfold single_mutate at h
    cases hm : mutate_bit g.binary_gene position with
    | none => rw [hm] at h; exact absurd h (by simp)
    | some gene =>
      rw [hm] at h
      have hs := generate_decimal_gene_spec _ _ h
      have hgl : gene.length = 8 * g.gene_length := by
        rw [mutate_bit_length g.binary_gene position gene hm, hinv]
      rw [hs.1, hs.2.1]
      show g.gene_length = gene.length / 8
      rw [hgl, Nat.mul_div_cancel_left g.gene_length (by norm_num)]
  · intro g rate flips g' h
    unfold multiple_mutate at h
    by_cases h0 : rate < 0
    · rw [if_pos h0] at h; exact absurd h (by simp)
    · rw [if_neg h0] at h
      by_cases h1 : 1 < rate
      · rw [if_pos h1] at h; exact absurd h (by simp)
      · rw [if_neg h1] at h
        cases hm : mm_loop flips g.binary_gene (List.range g.binary_gene.length) with
        | none => rw [hm] at h; exact absurd h (by simp)
        | some gene =>
          rw [hm] at h
          exact generate_after_set_binary g gene g' h
  · intro swap k p1 p2 c1 c2 h
    unfold crossover at h
    simp only [crossover_function] at h
    obtain ⟨h1, h2⟩ := crossover_match_inv h
    exact ⟨generate_after_set_binary _ _ _ h1, generate_after_set_binary _ _ _ h2⟩
  · intro g b
    exact ⟨rfl, fun g' h => generate_after_set_binary g b g' h⟩

/-- Witness for C7: a single mutation at bit 0 of an 8-bit gene leaves
decimal length 1 = binary length 8 / 8. -/
theorem claim_c7_witness :
    ({ baseGeno with
        binary_gene := '1' :: List.replicate 7 '0',
        decimal_gene := [128], gene_length := 1,
        position := (0, 0) } : Genotype).decimal_gene.length
      = ({ baseGeno with
            binary_gene := '1' :: List.replicate 7 '0',
            decimal_gene := [128], gene_length := 1,
            position := (0, 0) } : Genotype).binary_gene.length / 8 :=
  claim_c7_decimal_binary_invariant.1
    { baseGeno with
      binary_gene := List.replicate 8 '0',
      decimal_gene := [0], gene_length := 1 } 0
    { baseGeno with
      binary_gene := '1' :: List.replicate 7 '0',
      decimal_gene := [128], gene_length := 1, position := (0, 0) }
    (by decide) (by decide)

/-- Tail exchange at the same crosspoint is an involution: re-splicing the
two exchanged strings at `k` restores the originals, for any `k` within
both lengths. -/
theorem crossover_function_involution (x y : List Char) (k : Nat)
    (hx : k ≤ x.length) (hy : k ≤ y.length) :
    crossover_function (x.take k ++ y.drop k) (y.take k ++ x.drop k) k = (x, y) := by
  unfold crossover_function
  have hxl : (x.take k).length = k := by
    rw [List.length_take]
    omega
  have hyl : (y.take k).length = k := by
    rw [List.length_take]
    omega
  rw [List.take_left' hxl, List.drop_left' hyl, List.take_left' hyl,
    List.drop_left' hxl, List.take_append_drop, List.take_append_drop]

/-- The children a successful `_crossover` returns: each is its parent
copy carrying the crossed (and, for multiple-of-8 parents, untruncated)
binary gene, with the decimal gene regenerated. -/
theorem crossover_children (swap : Bool) (k : Nat) (p1 p2 c1 c2 : Genotype)
    (hc : crossover swap k p1 p2 = some (c1, c2)) :
    generate_decimal_gene (set_binary_gene (if swap then p1 else p2)
      ((if swap then p1 else p2).binary_gene.take k ++
        (if swap then p2 else p1).binary_gene.drop k)) = some c1 ∧
    generate_decimal_gene (set_binary_gene (if swap then p2 else p1)
      ((if swap then p2 else p1).binary_gene.take k ++
        (if swap then p1 else p2).binary_gene.drop k)) = some c2 := by
  unfold crossover at hc
  simp only [crossover_function] at hc
  exact crossover_match_inv hc

/-- With `k` at most the string's length and a string of length divisible
by 8, exchanging tails yields a string whose length is the other string's
length, and `set_binary_gene` truncates nothing. -/
theorem set_binary_crossed (g : Genotype) (x y : List Char) (k : Nat)
    (hkx : k ≤ x.length) (hky : k ≤ y.length) (h8 : 8 ∣ y.length) :
    (set_binary_gene g (x.take k ++ y.drop k)).binary_gene
        = x.take k ++ y.drop k ∧
    (x.take k ++ y.drop k).length = y.length := by
  have hlen : (x.take k ++ y.drop k).length = y.length := by
    rw [List.length_append, List.length_take, List.length_drop]
    omega
  have hmod : (x.take k ++ y.drop k).length % 8 = 0 := by
    obtain ⟨m, hm⟩ := h8
    rw [hlen, hm]
    exact Nat.mul_mod_right 8 m
  refine ⟨?_, hlen⟩
  show (x.take k ++ y.drop k).take
      ((x.take k ++ y.drop k).length - (x.take k ++ y.drop k).length % 8)
    = x.take k ++ y.drop k
  rw [hmod, Nat.sub_zero, List.take_length]

/-- C6 counterexample: with parents of different binary lengths (16 and 24
bits) and the recorded crosspoint `k = 2` (inside the claim's range
`[2, min(len1, len2) - 2]`), the child copied from parent 1 ends up with
parent 2's binary length, 24, not its own parent's length 16. -/
theorem claim_c6_counterexample :
    ((crossover true 2
        { baseGeno with
          binary_gene := List.replicate 16 '0',
          decimal_gene := [0, 0], gene_length := 2 }
        { baseGeno with
          binary_gene := List.replicate 24 '1',
          decimal_gene := [255, 255, 255], gene_length := 3 }).map
      (fun pr => (pr.1.binary_gene.length, pr.2.binary_gene.length))
        = some (24, 16)) ∧
    (2 ≤ 2 ∧ 2 ≤ min 16 24 - 2) ∧ (24 : Nat) ≠ 16 := by
  refine ⟨by decide, by decide, by decide⟩

/-- C6 (amended): re-splicing the two children of `_crossover` at the
recorded crosspoint reconstructs exactly the two parent genes (the tail
exchange is an involution), and each child's binary gene length equals the
*other* parent's original length — the length of the parent that supplied
its tail (so the pair of lengths is preserved, and only when the parents
have equal length does each child's length equal its own parent's). -/
theorem claim_c6_crossover_involution (swap : Bool) (k : Nat)
    (p1 p2 c1 c2 : Genotype)
    (h81 : 8 ∣ p1.binary_gene.length) (h82 : 8 ∣ p2.binary_gene.length)
    (_hk2 : 2 ≤ k)
    (hk : k ≤ min p1.binary_gene.length p2.binary_gene.length - 2)
    (hc : crossover swap k p1 p2 = some (c1, c2)) :
    crossover_function c1.binary_gene c2.binary_gene k =
      ((if swap then p1 else p2).binary_gene,
       (if swap then p2 else p1).binary_gene) ∧
    c1.binary_gene.length = (if swap then p2 else p1).binary_gene.length ∧
    c2.binary_gene.length = (if swap then p1 else p2).binary_gene.length := by
  set a := if swap then p1 else p2 with ha
  set b := if swap then p2 else p1 with hb
  have h8a : 8 ∣ a.binary_gene.length := by
    rw [ha]
    cases swap <;> simpa
  have h8b : 8 ∣ b.binary_gene.length := by
    rw [hb]
    cases swap <;> simpa
  have hmin : min p1.binary_gene.length p2.binary_gene.length
      = min a.binary_gene.length b.binary_gene.length := by
    rw [ha, hb]
    cases swap <;> simp [Nat.min_comm]
  rw [hmin] at hk
  have hka : k ≤ a.binary_gene.length := by omega
  have hkb : k ≤ b.binary_gene.length := by omega
  obtain ⟨hc1, hc2⟩ := crossover_children swap k p1 p2 c1 c2 hc
  rw [← ha, ← hb] at hc1 hc2
  have hb1 := set_binary_crossed a a.binary_gene b.binary_gene k hka hkb h8b
  have hb2 := set_binary_crossed b b.binary_gene a.binary_gene k hkb hka h8a
  have hg1 := generate_decimal_gene_spec _ _ hc1
  have hg2 := generate_decimal_gene_spec _ _ hc2
  have hc1bin : c1.binary_gene
      = a.binary_gene.take k ++ b.binary_gene.drop k := by
    rw [hg1.2.1, hb1.1]
  have hc2bin : c2.binary_gene
      = b.binary_gene.take k ++ a.binary_gene.drop k := by
    rw [hg2.2.1, hb2.1]
  refine ⟨?_, ?_, ?_⟩
  · rw [hc1bin, hc2bin]
    exact crossover_function_involution a.binary_gene b.binary_gene k hka hkb
  · rw [hc1bin, hb1.2]
  · rw [hc2bin, hb2.2]

/-- Witness for C6: equal-length parents (16 bits each), crosspoint 2:
re-splicing the children restores the parents and both lengths agree. -/
theorem claim_c6_witness :
    crossover_function
        ("00" ++ String.mk (List.replicate 14 '1')).toList
        ("11" ++ String.mk (List.replicate 14 '0')).toList 2 =
      ((List.replicate 16 '0' : List Char), (List.replicate 16 '1' : List Char)) ∧
    ("00" ++ String.mk (List.replicate 14 '1')).toList.length = 16 ∧
    ("11" ++ String.mk (List.replicate 14 '0')).toList.length = 16 := by
  have h := claim_c6_crossover_involution true 2
    { baseGeno with
      binary_gene := List.replicate 16 '0',
      decimal_gene := [0, 0], gene_length := 2 }
    { baseGeno with
      binary_gene := List.replicate 16 '1',
      decimal_gene := [255, 255], gene_length := 2 }
    { baseGeno with
      binary_gene := "00".toList ++ List.replicate 14 '1',
      decimal_gene := [63, 255], gene_length := 2, position := (0, 0) }
    { baseGeno with
      binary_gene := "11".toList ++ List.replicate 14 '0',
      decimal_gene := [192, 0], gene_length := 2, position := (0, 0) }
    (by decide) (by decide) (by decide) (by decide) (by decide)
  refine ⟨?_, by decide, by decide⟩
  have h1 := h.1
    -- align the string-literal spellings with the structure fields
  have e1 : ("00" ++ String.mk (List.replicate 14 '1')).toList
      = "00".toList ++ List.replicate 14 '1' := by decide
  have e2 : ("11" ++ String.mk (List.replicate 14 '0')).toList
      = "11".toList ++ List.replicate 14 '0' := by decide
  rw [e1, e2]
  simpa using h1

theorem mapCtxOk_refl (g : Genotype) : MapCtxOk g g :=
  ⟨rfl, rfl, rfl, fun _ hc => hc⟩

theorem mapCtxOk_trans {a b c : Genotype} (h1 : MapCtxOk a b)
    (h2 : MapCtxOk b c) : MapCtxOk a c :=
  ⟨h1.1.trans h2.1, h1.2.1.trans h2.2.1, h1.2.2.1.trans h2.2.2.1,
   fun x hx => h2.2.2.2 x (h1.2.2.2 x hx)⟩

/-- Drawing a codon preserves the mapping context. -/
theorem get_codon_ctx (g : Genotype) : MapCtxOk (get_codon g).1 g := by
  unfold get_codon
  by_cases h1 : ¬g.wrap = true ∧ g.position.2 = g.max_gene_length
  · simp only [if_pos h1]
    exact mapCtxOk_refl g
  · simp only [if_neg h1]
    cases hget : g.decimal_gene.get? g.position.1 with
    | none => exact mapCtxOk_refl g
    | some codon =>
      by_cases h2 : g.extend_genotype = true ∧ g.position.2 = g.decimal_gene.length
      · simp only [if_pos h2]
        refine ⟨rfl, rfl, rfl, fun c hc => ?_⟩
        rcases List.mem_append.mp hc with h | h
        · exact h
        · rw [List.mem_singleton.mp h]
          exact List.get?_mem hget
      · simp only [if_neg h2]
        exact mapCtxOk_refl g

/-- Resolving one grammar variable preserves the mapping context. -/
theorem resolve_variable_ctx (g : Genotype) (var : List Char) :
    MapCtxOk (resolve_variable g var).1 g := by
  unfold resolve_variable
  cases hl : g.local_bnf.lookup var with
  | none => exact mapCtxOk_refl g
  | some values =>
    have hctx : MapCtxOk (get_codon g).1 g := get_codon_ctx g
    cases hgc : get_codon g with
    | mk g' res =>
      rw [hgc] at hctx
      cases res with
      | error e => exact hctx
      | ok codon =>
        show MapCtxOk (match select_choice codon values with
          | none => (g', Except.error PyErr.zeroDivision)
          | some value => (g', Except.ok value)).1 g
        cases select_choice codon values with
        | none => exact hctx
        | some value => exact hctx

/-- One pass of the substitution loop preserves the mapping context. -/
theorem mapPass_ctx (cs : Bool) :
    ∀ (n : Nat) (l : List (List Char)), l.length ≤ n →
      ∀ (g : Genotype) (prev : Option (List Char)),
        MapCtxOk (mapPass cs g prev l).1 g := by
  intro n
  induction n with
  | zero =>
    intro l hl g prev
    have hnil : l = [] := List.eq_nil_of_length_eq_zero (Nat.le_zero.mp hl)
    subst hnil
    exact mapCtxOk_refl g
  | succ n ih =>
    intro l hl g prev
    cases l with
    | nil => exact mapCtxOk_refl g
    | cons item rest =>
      simp only [mapPass]
      by_cases hb : isBlank item
      · simp only [if_pos hb]
        exact ih rest (by simpa using Nat.le_of_succ_le_succ hl) g prev
      · simp only [if_neg hb]
        by_cases hv : item.head? = some '<' ∧ item.getLast? = some '>'
        · simp only [if_pos hv]
          have h0 : MapCtxOk (if stoplist_status cs prev
              then resolve_variable g item else (g, .ok item)).1 g := by
            by_cases hss : stoplist_status cs prev
            · simp only [if_pos hss]
              exact resolve_variable_ctx g item
            · simp only [if_neg hss]
              exact mapCtxOk_refl g
          cases hrv : (if stoplist_status cs prev
              then resolve_variable g item else (g, .ok item)) with
          | mk g' res =>
            rw [hrv] at h0
            cases res with
            | error e => exact h0
            | ok value =>
              cases rest with
              | nil => exact h0
              | cons head rest' =>
                have hih : MapCtxOk (mapPass cs g' (some value) rest').1 g' :=
                  ih rest' (by simp at hl; omega) g' (some value)
                show MapCtxOk (match mapPass cs g' (some value) rest' with
                  | (g'', .error e) => (g'', Except.error e)
                  | (g'', .ok (l, cm)) =>
                    (g'', Except.ok (value :: l,
                      if stoplist_status cs prev then true else cm))).1 g
                cases hmp : mapPass cs g' (some value) rest' with
                | mk g'' res' =>
                  rw [hmp] at hih
                  cases res' with
                  | error e => exact mapCtxOk_trans hih h0
                  | ok pr => exact mapCtxOk_trans hih h0
        · simp only [if_neg hv]
          have hih : MapCtxOk (mapPass cs g (some item) rest).1 g :=
            ih rest (by simpa using Nat.le_of_succ_le_succ hl) g (some item)
          cases hmp : mapPass cs g (some item) rest with
          | mk g'' res' =>
            rw [hmp] at hih
            cases res' with
            | error e => exact hih
            | ok pr => exact hih

/-- The whole substitution loop preserves the mapping context. -/
theorem mapLoop_ctx (cs : Bool) (elapsed : Nat → Nat) :
    ∀ (fuel passNo : Nat) (g : Genotype) (l : List (List Char)),
      MapCtxOk (mapLoop cs elapsed fuel passNo g l).1 g := by
  intro fuel
  induction fuel with
  | zero => intro passNo g l; exact mapCtxOk_refl g
  | succ n ih =>
    intro passNo g l
    simp only [mapLoop]
    have hmpc : MapCtxOk (mapPass cs g none l).1 g :=
      mapPass_ctx cs l.length l (le_refl _) g none
    cases hmp : mapPass cs g none l with
    | mk g' res =>
      rw [hmp] at hmpc
      cases res with
      | error e => exact hmpc
      | ok pr =>
        obtain ⟨pieces, continue_map⟩ := pr
        by_cases h1 : elapsed passNo > (if cs then g'.timeouts.2 else g'.timeouts.1)
        · simp only [if_pos h1]
          exact hmpc
        · simp only [if_neg h1]
          by_cases h2 : pieces.flatten.length > g'.max_program_length
          · simp only [if_pos h2]
            exact hmpc
          · simp only [if_neg h2]
            by_cases h3 : continue_map = false
            · simp only [if_pos h3]
              exact hmpc
            · simp only [if_neg h3]
              exact mapCtxOk_trans (ih (passNo + 1) g' (splitVars pieces.flatten)) hmpc

/-- Mapping a program preserves the mapping context. -/
theorem map_variables_ctx (g : Genotype) (program : List Char)
    (check_stoplist : Bool) (elapsed : Nat → Nat) (fuel : Nat) :
    MapCtxOk (map_variables g program check_stoplist elapsed fuel).1 g :=
  mapLoop_ctx check_stoplist elapsed fuel 0 g (splitVars program)

/-- The mapping step of `_map_gene` preserves the mapping context. -/
theorem map_gene_try_ctx (g : Genotype) (elapsed : Nat → Nat) (fuel : Nat) :
    MapCtxOk (map_gene_try g elapsed fuel).1 g := by
  unfold map_gene_try
  cases g.local_bnf.lookup "<S>".toList with
  | none => exact mapCtxOk_refl g
  | some values =>
    cases values with
    | nil => exact mapCtxOk_refl g
    | cons s _ => exact map_variables_ctx g s true elapsed fuel

/-- The `'<fitness>'` entry written by the setup step of `_map_gene`. -/
theorem lookup_setup_fitness (g : Genotype) (fmtF : Rat → List Char) :
    (map_gene_setup g fmtF).local_bnf.lookup "<fitness>".toList
      = some [fmtF g.fitness_fail] := rfl

/-- Writing the `'program'` entry does not disturb the `'<fitness>'`
entry. -/
theorem lookup_bnf_set_program (g : Genotype) (v : List (List Char)) :
    (bnf_set g "program".toList v).local_bnf.lookup "<fitness>".toList
      = g.local_bnf.lookup "<fitness>".toList := rfl

/-- With all codons in `[0, 255]`, `_update_genotype` succeeds and leaves
`_fitness` (and the decimal gene) unchanged. -/
theorem update_genotype_some (g : Genotype)
    (hr : ∀ c ∈ g.decimal_gene, 0 ≤ c ∧ c ≤ 255) :
    ∃ g', update_genotype g = some g' ∧ g'.fitness = g.fitness := by
  obtain ⟨bits, hb, _, _⟩ := dec2bin_gene_spec g.decimal_gene hr
  refine ⟨set_binary_gene g bits, ?_, rfl⟩
  unfold update_genotype
  rw [hb]

/-- Unfolds `compute_fitness` once `map_gene` is known to return the fail
value: the post-processing (`_update_genotype` under `extend`) succeeds
and both the returned value and the stored `_fitness` are the fail
value. -/
theorem compute_from_map_gene (g : Genotype)
    (execF : List Char → Genotype → Genotype × Option PyErr)
    (elapsed : Nat → Nat) (fuel : Nat) (fmtF : Rat → List Char)
    (parseF : List Char → Option Rat) (gmf : Genotype)
    (hmg : map_gene { g with position := (0, 0) } execF elapsed fuel fmtF parseF
      = some (gmf, g.fitness_fail))
    (hr : ∀ c ∈ gmf.decimal_gene, 0 ≤ c ∧ c ≤ 255)
    (hfit : gmf.fitness = g.fitness_fail) :
    (compute_fitness g execF elapsed fuel fmtF parseF).map Prod.snd
        = some g.fitness_fail ∧
    (compute_fitness g execF elapsed fuel fmtF parseF).map
        (fun p => p.1.fitness) = some g.fitness_fail := by
  simp only [compute_fitness]
  rw [hmg]
  by_cases hex : gmf.extend_genotype = true
  · obtain ⟨g'', hupd, hfitg⟩ := update_genotype_some gmf hr
    simp [hex, hupd, hfitg, hfit]
  · simp [hex, hfit]

/-- When the mapping step fails, the state at the end of the `try` block
is the state the mapping left behind (the bare `except` catches the
raise and the program is never executed). -/
theorem map_gene_after_error (g : Genotype)
    (execF : List Char → Genotype → Genotype × Option PyErr)
    (elapsed : Nat → Nat) (fuel : Nat) (fmtF : Rat → List Char)
    (gm : Genotype) (e : PyErr)
    (hmt : map_gene_try (map_gene_setup g fmtF) elapsed fuel = (gm, .error e)) :
    map_gene_after g execF elapsed fuel fmtF = gm := by
  unfold map_gene_after
  rw [hmt]

/-- When the mapping step succeeds, the state at the end of the `try`
block is whatever executing the program leaves behind. -/
theorem map_gene_after_ok (g : Genotype)
    (execF : List Char → Genotype → Genotype × Option PyErr)
    (elapsed : Nat → Nat) (fuel : Nat) (fmtF : Rat → List Char)
    (gm : Genotype) (program : List Char)
    (hmt : map_gene_try (map_gene_setup g fmtF) elapsed fuel = (gm, .ok program)) :
    map_gene_after g execF elapsed fuel fmtF
      = (execF program (bnf_set gm "program".toList [program])).1 := by
  unfold map_gene_after
  rw [hmt]

/-- Evaluates `_map_gene` once the `'<fitness>'` entry of the final state
and its parse are known. -/
theorem map_gene_eval (g : Genotype)
    (execF : List Char → Genotype → Genotype × Option PyErr)
    (elapsed : Nat → Nat) (fuel : Nat) (fmtF : Rat → List Char)
    (parseF : List Char → Option Rat) (v : List Char) (q : Rat)
    (hlk : (map_gene_after g execF elapsed fuel fmtF).local_bnf.lookup
        "<fitness>".toList = some [v])
    (hp : parseF v = some q) :
    map_gene g execF elapsed fuel fmtF parseF
      = some ({ map_gene_after g execF elapsed fuel fmtF with fitness := q }, q) := by
  unfold map_gene
  rw [hlk]
  simp only [hp]

/-- The mapping context at the end of the `try` block, relative to the
setup state, provided the executed program preserves the `'<fitness>'`
entry and keeps its codons in range. -/
theorem map_gene_after_props (g : Genotype)
    (execF : List Char → Genotype → Genotype × Option PyErr)
    (elapsed : Nat → Nat) (fuel : Nat) (fmtF : Rat → List Char)
    (hexec : ∀ (p : List Char) (gx : Genotype),
      (execF p gx).1.local_bnf.lookup "<fitness>".toList
          = gx.local_bnf.lookup "<fitness>".toList ∧
      (∀ c ∈ (execF p gx).1.decimal_gene,
        c ∈ gx.decimal_gene ∨ 0 ≤ c ∧ c ≤ 255)) :
    (map_gene_after g execF elapsed fuel fmtF).local_bnf.lookup
        "<fitness>".toList = some [fmtF g.fitness_fail] ∧
    (∀ c ∈ (map_gene_after g execF elapsed fuel fmtF).decimal_gene,
      c ∈ g.decimal_gene ∨ 0 ≤ c ∧ c ≤ 255) := by
  have hctx : MapCtxOk (map_gene_try (map_gene_setup g fmtF) elapsed fuel).1
      (map_gene_setup g fmtF) := map_gene_try_ctx _ elapsed fuel
  cases hmt : map_gene_try (map_gene_setup g fmtF) elapsed fuel with
  | mk gm res =>
    rw [hmt] at hctx
    have hgmlk : gm.local_bnf.lookup "<fitness>".toList
        = some [fmtF g.fitness_fail] := by
      rw [hctx.1]
      exact lookup_setup_fitness g fmtF
    have hgmdec : ∀ c ∈ gm.decimal_gene, c ∈ g.decimal_gene :=
      fun c hc => hctx.2.2.2 c hc
    cases res with
    | error e =>
      rw [map_gene_after_error g execF elapsed fuel fmtF gm e hmt]
      exact ⟨hgmlk, fun c hc => Or.inl (hgmdec c hc)⟩
    | ok program =>
      rw [map_gene_after_ok g execF elapsed fuel fmtF gm program hmt]
      have h1 := (hexec program (bnf_set gm "program".toList [program])).1
      have h2 := (hexec program (bnf_set gm "program".toList [program])).2
      constructor
      · rw [h1, lookup_bnf_set_program, hgmlk]
      · intro c hc
        rcases h2 c hc with hmem | hrange
        · exact Or.inl (hgmdec c hmem)
        · exact Or.inr hrange

/-- C2 (amended): every failure raised while mapping the gene to program
text (including the text exceeding `max_program_length`) is caught inside
fitness computation, and the recorded fitness is the configured
fail-fitness value; a failure while executing the generated program is
likewise caught and yields the fail-fitness value provided the program
has not itself overwritten the recorded `'<fitness>'` entry before
failing (a program that records a fitness and then raises keeps the
recorded value — see the counterexample).  The first conjunct covers any
mapping failure with an arbitrary execution oracle (execution never runs);
the second covers any execution behaviour, failing or not, that leaves the
`'<fitness>'` entry alone and keeps codons in range.  In both cases
`compute_fitness` returns normally (no exception propagates) with the
fail value both returned and stored in `_fitness`. -/
theorem claim_c2_failures_contained :
    (∀ (g : Genotype) (execF : List Char → Genotype → Genotype × Option PyErr)
        (elapsed : Nat → Nat) (fuel : Nat) (fmtF : Rat → List Char)
        (parseF : List Char → Option Rat) (gm : Genotype) (e : PyErr),
      parseF (fmtF g.fitness_fail) = some g.fitness_fail →
      (∀ c ∈ g.decimal_gene, 0 ≤ c ∧ c ≤ 255) →
      map_gene_try (map_gene_setup { g with position := (0, 0) } fmtF)
          elapsed fuel = (gm, .error e) →
      (compute_fitness g execF elapsed fuel fmtF parseF).map Prod.snd
          = some g.fitness_fail ∧
      (compute_fitness g execF elapsed fuel fmtF parseF).map
          (fun p => p.1.fitness) = some g.fitness_fail) ∧
    (∀ (g : Genotype) (execF : List Char → Genotype → Genotype × Option PyErr)
        (elapsed : Nat → Nat) (fuel : Nat) (fmtF : Rat → List Char)
        (parseF : List Char → Option Rat),
      parseF (fmtF g.fitness_fail) = some g.fitness_fail →
      (∀ c ∈ g.decimal_gene, 0 ≤ c ∧ c ≤ 255) →
      (∀ (p : List Char) (gx : Genotype),
        (execF p gx).1.local_bnf.lookup "<fitness>".toList
            = gx.local_bnf.lookup "<fitness>".toList ∧
        (∀ c ∈ (execF p gx).1.decimal_gene,
          c ∈ gx.decimal_gene ∨ 0 ≤ c ∧ c ≤ 255)) →
      (compute_fitness g execF elapsed fuel fmtF parseF).map Prod.snd
          = some g.fitness_fail ∧
      (compute_fitness g execF elapsed fuel fmtF parseF).map
          (fun p => p.1.fitness) = some g.fitness_fail) := by
  constructor
  · intro g execF elapsed fuel fmtF parseF gm e hround hr hmt
    have hctx : MapCtxOk (map_gene_try (map_gene_setup { g with position := (0, 0) }
        fmtF) elapsed fuel).1 (map_gene_setup { g with position := (0, 0) } fmtF) :=
      map_gene_try_ctx _ elapsed fuel
    rw [hmt] at hctx
    have hafter := map_gene_after_error { g with position := (0, 0) } execF
      elapsed fuel fmtF gm e hmt
    have hlk : (map_gene_after { g with position := (0, 0) } execF elapsed fuel
        fmtF).local_bnf.lookup "<fitness>".toList = some [fmtF g.fitness_fail] := by
      rw [hafter, hctx.1]
      exact lookup_setup_fitness { g with position := (0, 0) } fmtF
    have hmg := map_gene_eval { g with position := (0, 0) } execF elapsed fuel
      fmtF parseF (fmtF g.fitness_fail) g.fitness_fail hlk hround
    refine compute_from_map_gene g execF elapsed fuel fmtF parseF _ hmg ?_ rfl
    intro c hc
    exact hr c (hctx.2.2.2 c (by rw [← hafter]; exact hc))
  · intro g execF elapsed fuel fmtF parseF hround hr hexec
    obtain ⟨hlk, hdec⟩ := map_gene_after_props { g with position := (0, 0) }
      execF elapsed fuel fmtF hexec
    have hmg := map_gene_eval { g with position := (0, 0) } execF elapsed fuel
      fmtF parseF (fmtF g.fitness_fail) g.fitness_fail hlk hround
    refine compute_from_map_gene g execF elapsed fuel fmtF parseF _ hmg ?_ rfl
    intro c hc
    rcases hdec c hc with hmem | hrange
    · exact hr c hmem
    · exact hrange

/-- C2 counterexample: a generated program that records a fitness value
and then fails does not leave the fail-fitness value behind — the raise
is caught, but the recorded fitness is the program's 99, not the
configured `-1000`, so the claim's "the genotype's recorded fitness
equals the configured fail-fitness value" is false for this execution
failure. -/
theorem claim_c2_counterexample :
    (compute_fitness c2geno c2exec_overwrite (fun _ => 0) 3 c2fmt c2parse).map
        Prod.snd = some 99 ∧
    c2geno.fitness_fail = -1000 ∧ (99 : Rat) ≠ -1000 ∧
    (c2exec_overwrite "x".toList c2geno).2 = some PyErr.keyError := by
  refine ⟨by decide, by decide, by decide, by decide⟩

/-- Witness for C2: a genotype whose grammar lacks `'<S>'` fails to map
(`KeyError`); fitness computation returns the fail value `-1000`. -/
theorem claim_c2_witness :
    (compute_fitness c2geno_nos c2exec_idle (fun _ => 0) 3 c2fmt c2parse).map
        Prod.snd = some (-1000) :=
  (claim_c2_failures_contained.1 c2geno_nos c2exec_idle (fun _ => 0) 3 c2fmt
    c2parse (map_gene_setup { c2geno_nos with position := (0, 0) } c2fmt)
    PyErr.keyError (by decide) (by decide) (by decide)).1

end PyNeurGen
